import Mathlib

/-!
Verification of the to-do list manager in `src/script.js`.

The program keeps a module-level array `tasks` of task records
`{ id, text, completed, createdAt }` together with a current filter mode,
mutates it through `onAdd`, `toggleTask`, `removeTask` and `clearCompleted`,
projects it through `filteredTasks`, and persists it to `localStorage` via
`saveToStorage` / `loadFromStorage` (JSON serialization).

The embedding is a shallow one: the global `tasks` array becomes an explicit
`List Task` argument and result; values produced by the environment
(`Date.now().toString()`, `new Date().toISOString()`, the user's `confirm`
answer, storage availability) become explicit parameters; JSON
stringify/parse is modelled at the level of JSON values.
-/

namespace Todo

/-- A task record, as created in `onAdd` (src/script.js lines 52-57):
`{ id, text, completed, createdAt }`. -/
structure Task where
  id : String
  text : String
  completed : Bool
  createdAt : String
deriving DecidableEq

instance : Inhabited Task := ⟨⟨"", "", false, ""⟩⟩

/-- Model of the JavaScript builtin `String.prototype.trim` used by `onAdd`:
removes whitespace from both ends of the string. Defined on the character
list so that it evaluates by `decide`. -/
def jsTrim (s : String) : String :=
  ⟨((s.data.dropWhile Char.isWhitespace).reverse.dropWhile
      Char.isWhitespace).reverse⟩

/-- `onAdd` (src/script.js lines 48-62), shallowly embedded: the input field's
value, the freshly generated id (`Date.now().toString()`) and the creation
timestamp (`new Date().toISOString()`) are parameters supplied by the
environment. The code trims the input; if the trimmed text is falsy (empty)
it returns without touching `tasks`; otherwise it `unshift`s (prepends) the
new task with `completed: false`. -/
def onAdd (input newId now : String) (tasks : List Task) : List Task :=
  let text := jsTrim input
  if text = "" then tasks
  else { id := newId, text := text, completed := false, createdAt := now } :: tasks

/-- `toggleTask` (src/script.js lines 98-102):
`tasks = tasks.map(t => t.id === id ? {...t, completed: !t.completed} : t)`. -/
def toggleTask (id : String) (tasks : List Task) : List Task :=
  tasks.map fun t =>
    if t.id = id then { t with completed := !t.completed } else t

/-- `removeTask` (src/script.js lines 104-108):
`tasks = tasks.filter(t => t.id !== id)`. -/
def removeTask (id : String) (tasks : List Task) : List Task :=
  tasks.filter fun t => t.id != id

/-- Outcome of a `clearCompleted` call: the resulting task array, whether the
user was prompted with `confirm`, and whether `saveToStorage` was invoked. -/
structure ClearResult where
  tasks : List Task
  prompted : Bool
  saved : Bool
deriving DecidableEq

/-- `clearCompleted` (src/script.js lines 110-118): returns immediately when
no task is completed (no prompt, no write); otherwise prompts with `confirm`;
if the user declines it returns without mutating; if confirmed it keeps
exactly the tasks with `!t.completed` and saves. The `confirm` answer is an
environment parameter. -/
def clearCompleted (confirmed : Bool) (tasks : List Task) : ClearResult :=
  if tasks.any (fun t => t.completed) then
    if confirmed then
      ⟨tasks.filter (fun t => !t.completed), true, true⟩
    else ⟨tasks, true, false⟩
  else ⟨tasks, false, false⟩

/-- `filteredTasks` (src/script.js lines 120-124): the view projection from
the current filter string and the task array. Any filter string other than
`"active"` and `"completed"` (in particular the default `"all"`) yields the
full collection. -/
def filteredTasks (currentFilter : String) (tasks : List Task) : List Task :=
  if currentFilter = "active" then tasks.filter (fun t => !t.completed)
  else if currentFilter = "completed" then tasks.filter (fun t => t.completed)
  else tasks

/-- JSON values: the arguments of `JSON.stringify` and results of
`JSON.parse` in `saveToStorage` / `loadFromStorage`
(src/script.js lines 163-179). -/
inductive Json where
  | null
  | bool (b : Bool)
  | num (n : Int)
  | str (s : String)
  | arr (items : List Json)
  | obj (fields : List (String × Json))

/-- `JSON.stringify` of one task record: an object with the four fields in
insertion order. -/
def taskToJson (t : Task) : Json :=
  .obj [("id", .str t.id), ("text", .str t.text),
        ("completed", .bool t.completed), ("createdAt", .str t.createdAt)]

/-- `JSON.stringify(tasks)` at the JSON-value level: the serialized array of
task records in collection order (the persisted layout of spec section 6). -/
def tasksToJson (tasks : List Task) : Json :=
  .arr (tasks.map taskToJson)

/-- What `localStorage.getItem(STORAGE_KEY)` combined with `JSON.parse`
yields inside `loadFromStorage`: the key may be missing (the empty raw
string, which the `if (raw)` guard treats the same way, included), reading
or parsing may throw (`corrupt`), or parsing succeeds with some JSON
value. -/
inductive StoredValue where
  | missing
  | corrupt
  | parsed (j : Json)

/-- `saveToStorage` (src/script.js lines 163-169), shallowly embedded. `ok`
models whether `localStorage.setItem` succeeds; on failure the exception is
caught and logged (`console.error`), the previously persisted value stays,
and the in-memory collection — passed through as the second component — is
never modified by the function. -/
def saveToStorage (ok : Bool) (stored : StoredValue) (tasks : List Task) :
    StoredValue × List Task :=
  if ok then (.parsed (tasksToJson tasks), tasks) else (stored, tasks)

/-- `loadFromStorage` (src/script.js lines 171-179), shallowly embedded: the
value held by the module-level `tasks` variable after the call. The variable
starts as `[]`; a missing raw string leaves it; a read or parse exception is
caught, logged, and resets it to `[]`; a successfully parsed JSON value is
assigned verbatim — the code performs no shape validation, so the resulting
value is an arbitrary JSON value. -/
def loadFromStorage (stored : StoredValue) : Json :=
  match stored with
  | .missing => tasksToJson []
  | .corrupt => tasksToJson []
  | .parsed j => j

/-- Field lookup in a parsed JSON object, as JavaScript property access on
the object produced by `JSON.parse`. -/
def getField (fields : List (String × Json)) (k : String) : Option Json :=
  match fields.find? (fun p => p.1 == k) with
  | some p => some p.2
  | none => none

/-- A JSON value read as a string, as the program does with `id`, `text` and
`createdAt`. -/
def asStr : Json → Option String
  | .str s => some s
  | _ => none

/-- A JSON value read as a boolean, as the program does with `completed`. -/
def asBool : Json → Option Bool
  | .bool b => some b
  | _ => none

/-- Reading one task record back from the persisted layout (spec section 6):
the value-level counterpart of what `JSON.parse` reconstructs from
`JSON.stringify`'s output for one task. -/
def jsonToTask (j : Json) : Option Task :=
  match j with
  | .obj fields =>
    match (getField fields "id").bind asStr,
        (getField fields "text").bind asStr,
        (getField fields "completed").bind asBool,
        (getField fields "createdAt").bind asStr with
    | some i, some x, some c, some d => some ⟨i, x, c, d⟩
    | _, _, _, _ => none
  | _ => none

/-- Reading a list of task records element by element; fails if any element
is not a task record. -/
def jsonToTaskList : List Json → Option (List Task)
  | [] => some []
  | j :: rest =>
    match jsonToTask j, jsonToTaskList rest with
    | some t, some l => some (t :: l)
    | _, _ => none

/-- Reading a whole persisted collection back: a JSON array of task
records. Any other JSON value is not a valid task collection. -/
def jsonToTasks (j : Json) : Option (List Task) :=
  match j with
  | .arr items => jsonToTaskList items
  | _ => none

/-- A user-driven Task Store operation, with every environment-supplied
value (input text, generated id, timestamp, `confirm` answer) recorded in
the operation. -/
inductive Op where
  | add (input newId now : String)
  | toggle (id : String)
  | remove (id : String)
  | clear (confirmed : Bool)

/-- One dispatch step of the controller: the Task Store mutation the event
handlers perform on the collection. -/
def applyOp (op : Op) (tasks : List Task) : List Task :=
  match op with
  | .add input newId now => onAdd input newId now tasks
  | .toggle id => toggleTask id tasks
  | .remove id => removeTask id tasks
  | .clear confirmed => (clearCompleted confirmed tasks).tasks

/-- A session: a sequence of operations applied in order. -/
def runOps (ops : List Op) (tasks : List Task) : List Task :=
  match ops with
  | [] => tasks
  | op :: rest => runOps rest (applyOp op tasks)

/-- The ids present in the collection, in order. -/
def taskIds (tasks : List Task) : List String := tasks.map Task.id

/-- The freshness assumption on the environment's id generation for one
operation: an effective `add` uses an id not already in the collection. The
program takes the id from `Date.now().toString()`, which only guarantees
this when no two adds fall in the same millisecond. -/
def freshGuard (op : Op) (tasks : List Task) : Bool :=
  match op with
  | .add input newId _ =>
    jsTrim input == "" || !(taskIds tasks).contains newId
  | _ => true

/-- The freshness assumption along a whole session. -/
def freshIds : List Op → List Task → Bool
  | [], _ => true
  | op :: rest, tasks => freshGuard op tasks && freshIds rest (applyOp op tasks)

/-- The display text `render` (src/script.js line 144) inserts into the list
item's markup for a task: the escaped task text. -/
def escapeChar (c : Char) : String :=
  if c = '&' then "&amp;"
  else if c = '<' then "&lt;"
  else if c = '>' then "&gt;"
  else if c = Char.ofNat 34 then "&quot;"
  else if c = Char.ofNat 39 then "&#39;"
  else String.singleton c

/-- Escape of a character list, character by character. -/
def escapeList : List Char → String
  | [] => ""
  | c :: cs => escapeChar c ++ escapeList cs

/-- `escapeHtml` (src/script.js lines 192-201):
`text.replace(/[&<>"']/g, c => map[c])` — the global single-character regex
replace is the character-wise substitution of the five mapped entities,
leaving every other character unchanged. Char codes 34 and 39 are the
double-quote and apostrophe characters. -/
def escapeHtml (text : String) : String :=
  escapeList text.data

/-- The task text as inserted into the UI tree by `render`
(src/script.js line 144): `${escapeHtml(task.text)}`. -/
def renderTaskText (t : Task) : String :=
  escapeHtml t.text

end Todo

open Todo

/-- Helper: `getD` after `map`, for in-range indices. -/
theorem todo_getD_map {α β : Type} (l : List α) (f : α → β) (i : Nat)
    (h : i < l.length) (d : α) (e : β) :
    (l.map f).getD i e = f (l.getD i d) := by
  induction l generalizing i with
  | nil => simp at h
  | cons x xs ih =>
    cases i with
    | zero => rfl
    | succ n => simpa using ih n (by simpa using h)

/-- C1: for a non-empty trimmed input, `onAdd` prepends exactly one task
carrying the trimmed text, `completed = false`, the generated id and the
creation timestamp; for an input whose trimmed form is empty, `onAdd`
leaves the collection unchanged. -/
theorem onAdd_spec (input newId now : String) (tasks : List Task) :
    (jsTrim input ≠ "" →
      onAdd input newId now tasks =
        { id := newId, text := jsTrim input, completed := false,
          createdAt := now } :: tasks ∧
      (onAdd input newId now tasks).length = tasks.length + 1) ∧
    (jsTrim input = "" → onAdd input newId now tasks = tasks) := by
  constructor
  · intro h
    simp [onAdd, h]
  · intro h
    simp [onAdd, h]

/-- Witness for C1: `onAdd` at the concrete inputs `"  buy milk "` (trimmed
non-empty) and `"   "` (trimmed empty). -/
theorem onAdd_spec_witness :
    (onAdd "  buy milk " "100" "t0" [] =
      [{ id := "100", text := "buy milk", completed := false,
         createdAt := "t0" }]) ∧
    onAdd "   " "101" "t1" [] = [] := by
  refine ⟨((onAdd_spec "  buy milk " "100" "t0" []).1 (by decide)).1.trans ?_,
    (onAdd_spec "   " "101" "t1" []).2 (by decide)⟩
  decide

/-- C10: `toggleTask id` preserves length and order, flips the `completed`
flag of every task whose id equals `id` (all duplicates) while leaving `id`,
`text` and `createdAt` of every task unchanged, and applying it twice
restores the original collection. -/
theorem toggleTask_spec (id : String) (ts : List Task) :
    (toggleTask id ts).length = ts.length ∧
    (∀ i : Nat, i < ts.length →
      ((toggleTask id ts).getD i default).id = (ts.getD i default).id ∧
      ((toggleTask id ts).getD i default).text = (ts.getD i default).text ∧
      ((toggleTask id ts).getD i default).createdAt =
        (ts.getD i default).createdAt ∧
      ((toggleTask id ts).getD i default).completed =
        (if (ts.getD i default).id = id then !(ts.getD i default).completed
         else (ts.getD i default).completed)) ∧
    toggleTask id (toggleTask id ts) = ts := by
  refine ⟨by simp [toggleTask], fun i h => ?_, ?_⟩
  · rw [toggleTask, todo_getD_map ts _ i h default]
    generalize ts.getD i default = t
    by_cases hid : t.id = id <;> simp [hid]
  · induction ts with
    | nil => rfl
    | cons t rest ih =>
      simp only [toggleTask, List.map_cons] at ih ⊢
      refine congrArg₂ List.cons ?_ ih
      obtain ⟨a, b, c, d⟩ := t
      by_cases hid : a = id <;> simp [hid]

/-- Witness for C10: toggling id `"1"` twice on a concrete two-task list
(with a duplicated id) restores it, and the first toggle flips both
duplicates. -/
theorem toggleTask_spec_witness :
    ((toggleTask "1" [⟨"1", "a", false, "t0"⟩, ⟨"1", "b", true, "t1"⟩]).getD 0
        default).completed = true ∧
    ((toggleTask "1" [⟨"1", "a", false, "t0"⟩, ⟨"1", "b", true, "t1"⟩]).getD 1
        default).completed = false ∧
    toggleTask "1" (toggleTask "1"
        [⟨"1", "a", false, "t0"⟩, ⟨"1", "b", true, "t1"⟩]) =
      [⟨"1", "a", false, "t0"⟩, ⟨"1", "b", true, "t1"⟩] := by
  have h := toggleTask_spec "1" [⟨"1", "a", false, "t0"⟩, ⟨"1", "b", true, "t1"⟩]
  refine ⟨?_, ?_, h.2.2⟩
  · rw [(h.2.1 0 (by decide)).2.2.2]; decide
  · rw [(h.2.1 1 (by decide)).2.2.2]; decide

/-- C9: `removeTask id` is idempotent (the second application is a no-op);
moreover it returns an order-preserving subsequence holding exactly the
tasks whose id differs from `id`, and it is a no-op when no task matches. -/
theorem removeTask_spec (id : String) (ts : List Task) :
    removeTask id (removeTask id ts) = removeTask id ts ∧
    (removeTask id ts).Sublist ts ∧
    (∀ t : Task, t ∈ removeTask id ts ↔ t ∈ ts ∧ t.id ≠ id) ∧
    ((∀ t : Task, t ∈ ts → t.id ≠ id) → removeTask id ts = ts) := by
  refine ⟨?_, List.filter_sublist ts, fun t => ?_, fun h => ?_⟩
  · simp [removeTask, List.filter_filter]
  · simp [removeTask, List.mem_filter]
  · rw [removeTask, List.filter_eq_self.mpr]
    intro t ht
    simpa using h t ht

/-- Witness for C9: removing id `"9"` from a one-task list with id `"1"`
is a no-op, and removing twice equals removing once. -/
theorem removeTask_spec_witness :
    removeTask "9" [⟨"1", "a", false, "t0"⟩] = [⟨"1", "a", false, "t0"⟩] ∧
    removeTask "1" (removeTask "1"
        [⟨"1", "a", false, "t0"⟩, ⟨"2", "b", true, "t1"⟩]) =
      removeTask "1" [⟨"1", "a", false, "t0"⟩, ⟨"2", "b", true, "t1"⟩] :=
  ⟨(removeTask_spec "9" [⟨"1", "a", false, "t0"⟩]).2.2.2 (by decide),
   (removeTask_spec "1" [⟨"1", "a", false, "t0"⟩, ⟨"2", "b", true, "t1"⟩]).1⟩

/-- C2: the view projection is a pure function of the collection and the
filter mode; `"all"` yields the full collection, `"active"` an
order-preserving subsequence holding exactly (with multiplicity) the tasks
with `completed = false`, and `"completed"` one holding exactly the tasks
with `completed = true`. -/
theorem filteredTasks_spec (ts : List Task) :
    filteredTasks "all" ts = ts ∧
    (filteredTasks "active" ts).Sublist ts ∧
    (∀ t : Task, t.completed = false →
      (filteredTasks "active" ts).count t = ts.count t) ∧
    (∀ t : Task, t.completed = true →
      (filteredTasks "active" ts).count t = 0) ∧
    (filteredTasks "completed" ts).Sublist ts ∧
    (∀ t : Task, t.completed = true →
      (filteredTasks "completed" ts).count t = ts.count t) ∧
    (∀ t : Task, t.completed = false →
      (filteredTasks "completed" ts).count t = 0) := by
  have hact : filteredTasks "active" ts = ts.filter (fun t => !t.completed) := by
    simp [filteredTasks]
  have hcomp : filteredTasks "completed" ts = ts.filter (fun t => t.completed) := by
    simp [filteredTasks]
  refine ⟨by simp [filteredTasks], ?_, fun t h => ?_, fun t h => ?_, ?_,
    fun t h => ?_, fun t h => ?_⟩
  · rw [hact]; exact List.filter_sublist ts
  · rw [hact]; exact List.count_filter (by simp [h])
  · rw [hact, List.count_eq_zero]
    simp [List.mem_filter, h]
  · rw [hcomp]; exact List.filter_sublist ts
  · rw [hcomp]; exact List.count_filter (by simp [h])
  · rw [hcomp, List.count_eq_zero]
    simp [List.mem_filter, h]

/-- Witness for C2: the projection at a concrete two-task list, one active
and one completed. -/
theorem filteredTasks_spec_witness :
    filteredTasks "all" [⟨"1", "a", false, "t0"⟩, ⟨"2", "b", true, "t1"⟩] =
      [⟨"1", "a", false, "t0"⟩, ⟨"2", "b", true, "t1"⟩] ∧
    (filteredTasks "active" [⟨"1", "a", false, "t0"⟩, ⟨"2", "b", true, "t1"⟩]).count
        ⟨"1", "a", false, "t0"⟩ =
      ([⟨"1", "a", false, "t0"⟩, ⟨"2", "b", true, "t1"⟩] : List Task).count
        ⟨"1", "a", false, "t0"⟩ ∧
    (filteredTasks "active" [⟨"1", "a", false, "t0"⟩, ⟨"2", "b", true, "t1"⟩]).count
        ⟨"2", "b", true, "t1"⟩ = 0 :=
  ⟨(filteredTasks_spec [⟨"1", "a", false, "t0"⟩, ⟨"2", "b", true, "t1"⟩]).1,
   (filteredTasks_spec [⟨"1", "a", false, "t0"⟩, ⟨"2", "b", true, "t1"⟩]).2.2.1
     ⟨"1", "a", false, "t0"⟩ (by decide),
   (filteredTasks_spec [⟨"1", "a", false, "t0"⟩, ⟨"2", "b", true, "t1"⟩]).2.2.2.1
     ⟨"2", "b", true, "t1"⟩ (by decide)⟩

/-- C6: when at least one task is completed and the user confirms,
`clearCompleted` keeps exactly the non-completed tasks (an order-preserving
subsequence) and writes to storage; when no task is completed it returns
immediately without prompting or saving; and when the user does not confirm,
the collection is not mutated and nothing is saved. -/
theorem clearCompleted_spec (confirmed : Bool) (ts : List Task) :
    (ts.any (fun t => t.completed) = true →
      (clearCompleted true ts).prompted = true ∧
      (clearCompleted true ts).saved = true ∧
      ((clearCompleted true ts).tasks).Sublist ts ∧
      (∀ t : Task, t.completed = false →
        ((clearCompleted true ts).tasks).count t = ts.count t) ∧
      (∀ t : Task, t.completed = true →
        ((clearCompleted true ts).tasks).count t = 0)) ∧
    (ts.any (fun t => t.completed) = false →
      clearCompleted confirmed ts = ⟨ts, false, false⟩) ∧
    (confirmed = false →
      (clearCompleted confirmed ts).tasks = ts ∧
      (clearCompleted confirmed ts).saved = false) := by
  refine ⟨fun hany => ?_, fun hnone => ?_, fun hno => ?_⟩
  · have hres : clearCompleted true ts =
        ⟨ts.filter (fun t => !t.completed), true, true⟩ := by
      simp [clearCompleted, hany]
    refine ⟨by rw [hres], by rw [hres], by rw [hres]; exact List.filter_sublist ts,
      fun t h => ?_, fun t h => ?_⟩
    · rw [hres]; exact List.count_filter (by simp [h])
    · rw [hres]
      rw [List.count_eq_zero]
      simp [List.mem_filter, h]
  · simp [clearCompleted, hnone]
  · subst hno
    by_cases hany : ts.any (fun t => t.completed) = true <;>
      simp [clearCompleted, hany]

/-- Witness for C6: the spec scenario — two completed tasks and one active
task; a confirmed `clearCompleted` leaves exactly the active task, and with
no completed task the call neither prompts nor saves. -/
theorem clearCompleted_spec_witness :
    ((clearCompleted true [⟨"1", "a", true, "t0"⟩, ⟨"2", "b", true, "t1"⟩,
        ⟨"3", "c", false, "t2"⟩]).tasks).count ⟨"3", "c", false, "t2"⟩ =
      ([⟨"1", "a", true, "t0"⟩, ⟨"2", "b", true, "t1"⟩,
        ⟨"3", "c", false, "t2"⟩] : List Task).count ⟨"3", "c", false, "t2"⟩ ∧
    ((clearCompleted true [⟨"1", "a", true, "t0"⟩, ⟨"2", "b", true, "t1"⟩,
        ⟨"3", "c", false, "t2"⟩]).tasks).count ⟨"1", "a", true, "t0"⟩ = 0 ∧
    clearCompleted true [⟨"3", "c", false, "t2"⟩] =
      ⟨[⟨"3", "c", false, "t2"⟩], false, false⟩ ∧
    (clearCompleted false [⟨"1", "a", true, "t0"⟩]).tasks =
      [⟨"1", "a", true, "t0"⟩] :=
  ⟨((clearCompleted_spec true [⟨"1", "a", true, "t0"⟩, ⟨"2", "b", true, "t1"⟩,
      ⟨"3", "c", false, "t2"⟩]).1 (by decide)).2.2.2.1
      ⟨"3", "c", false, "t2"⟩ (by decide),
   ((clearCompleted_spec true [⟨"1", "a", true, "t0"⟩, ⟨"2", "b", true, "t1"⟩,
      ⟨"3", "c", false, "t2"⟩]).1 (by decide)).2.2.2.2
      ⟨"1", "a", true, "t0"⟩ (by decide),
   (clearCompleted_spec true [⟨"3", "c", false, "t2"⟩]).2.1 (by decide),
   ((clearCompleted_spec false [⟨"1", "a", true, "t0"⟩]).2.2 (by decide)).1⟩

/-- C3: saving a collection and loading it back reproduces an equal
collection — reading the persisted JSON value written by a successful save
yields exactly the original tasks, every field and the order included. -/
theorem save_load_roundtrip (stored : StoredValue) (ts : List Task) :
    jsonToTasks (loadFromStorage (saveToStorage true stored ts).1) = some ts := by
  show jsonToTasks (tasksToJson ts) = some ts
  induction ts with
  | nil => rfl
  | cons t rest ih =>
    have h1 : jsonToTask (taskToJson t) = some t := rfl
    have h2 : jsonToTaskList (rest.map taskToJson) = some rest := ih
    show jsonToTaskList (taskToJson t :: rest.map taskToJson) = some (t :: rest)
    simp only [jsonToTaskList, h1, h2]

/-- C8: when the storage write fails, the previously persisted value is left
untouched and the in-memory collection is exactly what it was before the
attempt; the in-memory collection is never modified by a save, successful or
not. -/
theorem saveToStorage_failure_spec (stored : StoredValue) (ts : List Task) :
    saveToStorage false stored ts = (stored, ts) ∧
    ∀ ok : Bool, (saveToStorage ok stored ts).2 = ts := by
  refine ⟨rfl, fun ok => ?_⟩
  cases ok <;> rfl

/-- C5 counterexample: the stored value that parses to the JSON number 42 is
not a valid task collection, yet `loadFromStorage` installs it verbatim
instead of resetting to the empty collection — the code validates nothing
beyond `JSON.parse` succeeding. -/
theorem loadFromStorage_noValidation_counterexample :
    loadFromStorage (.parsed (Json.num 42)) = Json.num 42 ∧
    jsonToTasks (Json.num 42) = none ∧
    loadFromStorage (.parsed (Json.num 42)) ≠ tasksToJson [] := by
  refine ⟨rfl, rfl, ?_⟩
  simp [loadFromStorage, tasksToJson]

/-- C5 amended: `loadFromStorage` returns the empty collection when the key
is missing and when reading or parsing throws (the error is logged); a
stored value that parses successfully is installed verbatim, with no
validation that it is a task collection. -/
theorem loadFromStorage_spec :
    loadFromStorage .missing = tasksToJson [] ∧
    loadFromStorage .corrupt = tasksToJson [] ∧
    ∀ j : Json, loadFromStorage (.parsed j) = j :=
  ⟨rfl, rfl, fun _ => rfl⟩

/-- Helper: toggling never changes the sequence of ids. -/
theorem todo_taskIds_toggle (id : String) (ts : List Task) :
    taskIds (toggleTask id ts) = taskIds ts := by
  unfold taskIds toggleTask
  rw [List.map_map]
  refine List.map_congr_left fun t _ => ?_
  by_cases hid : t.id = id <;> simp [hid, Function.comp]

/-- Helper: `clearCompleted` returns a subsequence of the collection. -/
theorem todo_clear_sublist (c : Bool) (ts : List Task) :
    ((clearCompleted c ts).tasks).Sublist ts := by
  unfold clearCompleted
  split
  · split
    · exact List.filter_sublist ts
    · exact List.Sublist.refl ts
  · exact List.Sublist.refl ts

/-- Helper: one dispatch step preserves distinctness of the ids, provided an
effective add uses an id not already present. -/
theorem todo_applyOp_nodup (op : Op) (ts : List Task)
    (h1 : (taskIds ts).Nodup) (h2 : freshGuard op ts = true) :
    (taskIds (applyOp op ts)).Nodup := by
  cases op with
  | add input newId now =>
    by_cases he : jsTrim input = ""
    · have hts : applyOp (.add input newId now) ts = ts := by
        simp [applyOp, onAdd, he]
      rw [hts]; exact h1
    · have hts : applyOp (.add input newId now) ts =
          ⟨newId, jsTrim input, false, now⟩ :: ts := by
        simp [applyOp, onAdd, he]
      have hmem : newId ∉ taskIds ts := by
        simp [freshGuard, he] at h2
        exact h2
      rw [hts]
      exact List.Nodup.cons hmem h1
  | toggle id => rw [show applyOp (.toggle id) ts = toggleTask id ts from rfl,
      todo_taskIds_toggle]; exact h1
  | remove id =>
    exact h1.sublist ((List.filter_sublist ts).map Task.id)
  | clear c =>
    exact h1.sublist ((todo_clear_sublist c ts).map Task.id)

/-- C4 counterexample: two adds in the same millisecond — the generated id
`Date.now().toString()` is `"100"` both times — produce a collection in
which two tasks share the id `"100"`. -/
theorem id_uniqueness_counterexample :
    ¬ (taskIds (runOps [.add "a" "100" "t0", .add "b" "100" "t0"] [])).Nodup := by
  decide

/-- C4 amended: along every session in which each effective add generates an
id not already in the collection (as holds when no two adds share a
millisecond timestamp), every reachable collection has pairwise distinct
ids. -/
theorem id_uniqueness_spec (ops : List Op) (ts : List Task)
    (h1 : (taskIds ts).Nodup) (h2 : freshIds ops ts = true) :
    (taskIds (runOps ops ts)).Nodup := by
  induction ops generalizing ts with
  | nil => exact h1
  | cons op rest ih =>
    rw [freshIds, Bool.and_eq_true] at h2
    exact ih (applyOp op ts) (todo_applyOp_nodup op ts h1 h2.1) h2.2

/-- Witness for C4 (amended): a concrete session with fresh ids — two adds,
a toggle, a remove and a confirmed clear — keeps the ids distinct. -/
theorem id_uniqueness_spec_witness :
    (taskIds (runOps [Op.add "a" "1" "t0", Op.toggle "1",
        Op.add "b" "2" "t1", Op.remove "1", Op.clear true] [])).Nodup :=
  id_uniqueness_spec
    [Op.add "a" "1" "t0", Op.toggle "1", Op.add "b" "2" "t1",
     Op.remove "1", Op.clear true] [] (by decide) (by decide)

/-- Helper: no character produced by `escapeChar` is a raw markup
character. -/
theorem todo_escapeChar_markup_free (c x : Char)
    (hx : x ∈ (escapeChar c).data) :
    x ≠ '<' ∧ x ≠ '>' ∧ x ≠ Char.ofNat 34 ∧ x ≠ Char.ofNat 39 := by
  by_cases h1 : c = '&'
  · rw [h1, show escapeChar '&' = "&amp;" from rfl,
      show ("&amp;").data = ['&', 'a', 'm', 'p', ';'] from rfl] at hx
    fin_cases hx <;> refine ⟨by decide, by decide, by decide, by decide⟩
  by_cases h2 : c = '<'
  · rw [h2, show escapeChar '<' = "&lt;" from rfl,
      show ("&lt;").data = ['&', 'l', 't', ';'] from rfl] at hx
    fin_cases hx <;> refine ⟨by decide, by decide, by decide, by decide⟩
  by_cases h3 : c = '>'
  · rw [h3, show escapeChar '>' = "&gt;" from rfl,
      show ("&gt;").data = ['&', 'g', 't', ';'] from rfl] at hx
    fin_cases hx <;> refine ⟨by decide, by decide, by decide, by decide⟩
  by_cases h4 : c = Char.ofNat 34
  · rw [h4, show escapeChar (Char.ofNat 34) = "&quot;" from rfl,
      show ("&quot;").data = ['&', 'q', 'u', 'o', 't', ';'] from rfl] at hx
    fin_cases hx <;> refine ⟨by decide, by decide, by decide, by decide⟩
  by_cases h5 : c = Char.ofNat 39
  · rw [h5, show escapeChar (Char.ofNat 39) = "&#39;" from rfl,
      show ("&#39;").data = ['&', '#', '3', '9', ';'] from rfl] at hx
    fin_cases hx <;> refine ⟨by decide, by decide, by decide, by decide⟩
  · rw [show escapeChar c = String.singleton c from by
        simp [escapeChar, h1, h2, h3, h4, h5],
      show (String.singleton c).data = [c] from rfl] at hx
    rw [List.mem_singleton] at hx
    subst hx
    exact ⟨h2, h3, h4, h5⟩

/-- Helper: no character of an escaped string is a raw markup character. -/
theorem todo_escapeList_markup_free (l : List Char) (x : Char)
    (hx : x ∈ (escapeList l).data) :
    x ≠ '<' ∧ x ≠ '>' ∧ x ≠ Char.ofNat 34 ∧ x ≠ Char.ofNat 39 := by
  induction l with
  | nil => simp [escapeList] at hx
  | cons c cs ih =>
    rw [escapeList, String.data_append] at hx
    rcases List.mem_append.mp hx with h | h
    · exact todo_escapeChar_markup_free c x h
    · exact ih h

/-- Helper: escaping is a homomorphism for concatenation. -/
theorem todo_escapeList_append (l1 l2 : List Char) :
    escapeList (l1 ++ l2) = escapeList l1 ++ escapeList l2 := by
  induction l1 with
  | nil => rw [List.nil_append, escapeList, String.empty_append]
  | cons c cs ih => rw [List.cons_append, escapeList, escapeList, ih,
      String.append_assoc]

/-- C7: `escapeHtml` distributes over concatenation, leaves every character
outside the five-character set unchanged, maps each of the five characters
to its HTML entity (char codes 34 and 39 are the double quote and the
apostrophe), produces output with no raw markup character, and is the text
`render` inserts into the UI tree; `"<script>"` becomes the literal
`"&lt;script&gt;"`. -/
theorem escapeHtml_spec (s t : String) (c : Char) :
    escapeHtml (s ++ t) = escapeHtml s ++ escapeHtml t ∧
    (c ≠ '&' → c ≠ '<' → c ≠ '>' → c ≠ Char.ofNat 34 → c ≠ Char.ofNat 39 →
      escapeHtml (String.singleton c) = String.singleton c) ∧
    escapeHtml "&" = "&amp;" ∧
    escapeHtml "<" = "&lt;" ∧
    escapeHtml ">" = "&gt;" ∧
    escapeHtml (String.singleton (Char.ofNat 34)) = "&quot;" ∧
    escapeHtml (String.singleton (Char.ofNat 39)) = "&#39;" ∧
    (∀ x : Char, x ∈ (escapeHtml s).data →
      x ≠ '<' ∧ x ≠ '>' ∧ x ≠ Char.ofNat 34 ∧ x ≠ Char.ofNat 39) ∧
    renderTaskText ⟨"0", s, false, "t"⟩ = escapeHtml s ∧
    escapeHtml "<script>" = "&lt;script&gt;" := by
  refine ⟨?_, fun h1 h2 h3 h4 h5 => ?_, by decide, by decide, by decide,
    by decide, by decide, fun x hx => todo_escapeList_markup_free s.data x hx,
    rfl, by decide⟩
  · rw [escapeHtml, escapeHtml, escapeHtml, String.data_append,
      todo_escapeList_append]
  · rw [escapeHtml, show (String.singleton c).data = [c] from rfl,
      escapeList, escapeList, String.append_empty]
    simp [escapeChar, h1, h2, h3, h4, h5]

/-- Witness for C7: the theorem at the concrete strings `"a&b"` and `"<c"`
and the concrete unescaped character `x`. -/
theorem escapeHtml_spec_witness :
    escapeHtml ("a&b" ++ "<c") = escapeHtml "a&b" ++ escapeHtml "<c" ∧
    escapeHtml (String.singleton 'x') = String.singleton 'x' ∧
    ('&' ≠ '<' ∧ '&' ≠ '>' ∧ '&' ≠ Char.ofNat 34 ∧ '&' ≠ Char.ofNat 39) ∧
    escapeHtml "<script>" = "&lt;script&gt;" := by
  have h := escapeHtml_spec "a&b" "<c" 'x'
  exact ⟨h.1,
    h.2.1 (by decide) (by decide) (by decide) (by decide) (by decide),
    h.2.2.2.2.2.2.2.1 '&' (by decide),
    h.2.2.2.2.2.2.2.2.2⟩
